import Mathlib

/-!
Verification of the projectile-motion simulator (`src/main.py`).

The physics core is embedded shallowly over `ℝ`: Python floats become real
numbers (arithmetic treated as exact), `math.hypot/sin/cos/pi` become
`Real.sqrt/sin/cos/pi`, and Python's `**` on a positive base becomes `Real.rpow`.
Stateful methods become functions `Projectile → Projectile`.  Fields irrelevant
to the claims (the display color) are omitted.
-/

/-- `G_EARTH = 9.81` (main.py line 18). -/
def gEarth : ℝ := 9.81

/-- `AIR_DENSITY = 1.225` (main.py line 19). -/
def airDensity : ℝ := 1.225

/-- `DRAG_COEFF = 0.47` (main.py line 20). -/
def dragCoeff : ℝ := 0.47

/-- `clamp(v, a, b) = max(a, min(b, v))` (main.py line 48). -/
def clamp (v a b : ℝ) : ℝ := max a (min b v)

/-- The state of one simulated body: the fields of `Projectile` set in
`Projectile.__init__` (main.py lines 57-91), minus the display color.
A trajectory sample is a triple `(t, x, y)`. -/
structure Projectile where
  angle : ℝ
  v0 : ℝ
  mass : ℝ
  y0 : ℝ
  air : Bool
  vx : ℝ
  vy : ℝ
  x : ℝ
  y : ℝ
  t : ℝ
  dt : ℝ
  trajectory : List (ℝ × ℝ × ℝ)
  landed : Bool
  maxHeight : ℝ
  finalSpeed : ℝ
  flightTime : ℝ
  range : ℝ
  area : ℝ

/-- `Projectile.__init__` (main.py lines 57-91).  `math.radians(d) = d·π/180`.
The `try/except` around the area derivation cannot fire over `ℝ` (the guarded
branch is total), so only the `volume <= 0` fallback remains. -/
noncomputable def Projectile.init (angleDeg speed mass y0 : ℝ) (air : Bool) :
    Projectile :=
  let angle := angleDeg * (Real.pi / 180)
  let volume := mass / 1000
  { angle := angle
    v0 := speed
    mass := mass
    y0 := y0
    air := air
    vx := speed * Real.cos angle
    vy := speed * Real.sin angle
    x := 0
    y := y0
    t := 0
    dt := 0.01
    trajectory := [(0, 0, y0)]
    landed := false
    maxHeight := y0
    finalSpeed := 0
    flightTime := 0
    range := 0
    area :=
      if volume ≤ 0 then 0.01
      else
        let radius := (3 * volume / (4 * Real.pi)) ^ ((1 : ℝ) / 3)
        Real.pi * radius * radius }

/-- `v = math.hypot(self.vx, self.vy)` (main.py line 100). -/
noncomputable def Projectile.vMag (p : Projectile) : ℝ :=
  Real.sqrt (p.vx ^ 2 + p.vy ^ 2)

/-- The acceleration computed in `step` (main.py lines 102-108). -/
noncomputable def Projectile.accel (p : Projectile) : ℝ × ℝ :=
  if p.air = true ∧ 0 < p.vMag then
    let dragForce := 0.5 * airDensity * dragCoeff * p.area * p.vMag * p.vMag
    (-(dragForce * (p.vx / p.vMag)) / p.mass,
     -(dragForce * (p.vy / p.vMag)) / p.mass - gEarth)
  else (0, -gEarth)

/-- Euler integration, trajectory append and max-height update in `step`
(main.py lines 110-122): velocity is updated before position. -/
noncomputable def Projectile.integrate (p : Projectile) : Projectile :=
  let vx := p.vx + p.accel.1 * p.dt
  let vy := p.vy + p.accel.2 * p.dt
  let x := p.x + vx * p.dt
  let y := p.y + vy * p.dt
  let t := p.t + p.dt
  { p with
    vx := vx, vy := vy, x := x, y := y, t := t
    trajectory := p.trajectory ++ [(t, x, y)]
    maxHeight := if p.maxHeight < y then y else p.maxHeight }

/-- Landing detection in `step` (main.py lines 124-143).  `trajectory[-1]`
is the sample just appended, `trajectory[-2]` the one before it (every
reachable trajectory has at least two samples at this point; the `getLastD`
default mirrors that Python would fault otherwise). -/
noncomputable def Projectile.landCheck (q : Projectile) : Projectile :=
  if q.y ≤ 0 then
    let s2 := q.trajectory.getLastD (0, 0, 0)
    let s1 := q.trajectory.dropLast.getLastD (0, 0, 0)
    let frac0 := if s2.2.2 = s1.2.2 then 0 else (0 - s1.2.2) / (s2.2.2 - s1.2.2)
    let frac := clamp frac0 0 1
    let tLand := s1.1 + frac * (s2.1 - s1.1)
    let xLand := s1.2.1 + frac * (s2.2.1 - s1.2.1)
    { q with
      flightTime := tLand
      range := xLand
      finalSpeed := Real.sqrt (q.vx ^ 2 + q.vy ^ 2)
      landed := true
      trajectory := q.trajectory.dropLast ++ [(tLand, xLand, 0)] }
  else q

/-- `Projectile.step` (main.py lines 93-143). -/
noncomputable def Projectile.step (p : Projectile) : Projectile :=
  if p.landed then p else p.integrate.landCheck

/-- `Projectile.step` with every division site guarded (main.py lines
102-105 divide by `v` and by `self.mass` inside the drag branch): the result
is `none` exactly when one of those divisions would have a zero divisor,
and otherwise the stepped state. -/
noncomputable def Projectile.stepChecked (p : Projectile) : Option Projectile :=
  if p.landed then some p
  else
    let oa : Option (ℝ × ℝ) :=
      if p.air = true ∧ 0 < p.vMag then
        if p.vMag = 0 ∨ p.mass = 0 then none
        else
          let dragForce := 0.5 * airDensity * dragCoeff * p.area * p.vMag * p.vMag
          some (-(dragForce * (p.vx / p.vMag)) / p.mass,
                -(dragForce * (p.vy / p.vMag)) / p.mass - gEarth)
      else some (0, -gEarth)
    match oa with
    | none => none
    | some _ => some p.integrate.landCheck

/-- The scene state owned by `ProjectileApp` (main.py lines 296-298):
the projectile collection, the play flag and the optional selection. -/
structure Scene where
  projectiles : List Projectile
  isPlaying : Bool
  selectedIndex : Option Nat

/-- `ProjectileApp.spawn_projectile` (main.py lines 356-364): mass floored
to `0.0001`, starting height floored to `0`, the new projectile appended and
selected. -/
noncomputable def spawnProjectile (s : Scene) (angle speed mass h0 : ℝ)
    (air : Bool) : Scene :=
  let p := Projectile.init angle speed (max 0.0001 mass) (max 0.0 h0) air
  { s with
    projectiles := s.projectiles ++ [p]
    selectedIndex := some s.projectiles.length }

/-- `ProjectileApp.clear_all` (main.py lines 366-368). -/
def clearAll (s : Scene) : Scene :=
  { s with projectiles := [], selectedIndex := none }

/-- The bounds computation of `ProjectileApp.world_to_screen`
(main.py lines 469-480): one pass over every sample of every trajectory
updating both running maxima, then the 1.2 padding, then the 1e-3 floor. -/
noncomputable def computeBounds (ps : List Projectile) : ℝ × ℝ :=
  let m := ps.foldl
    (fun (acc : ℝ × ℝ) p =>
      p.trajectory.foldl
        (fun (a : ℝ × ℝ) s =>
          (if s.2.1 > a.1 then s.2.1 else a.1,
           if s.2.2 > a.2 then s.2.2 else a.2))
        acc)
    (10, 5)
  (max (m.1 * 1.2) 1e-3, max (m.2 * 1.2) 1e-3)

/-- States reachable by the program: constructed by `Projectile.init`
(with any parameters) and advanced by `Projectile.step`. -/
inductive Reachable : Projectile → Prop
  | base (a s m h : ℝ) (air : Bool) : Reachable (Projectile.init a s m h air)
  | next (p : Projectile) : Reachable p → Reachable p.step

/-- States reachable from a given starting state by iterating `step`. -/
inductive ReachableFrom (p : Projectile) : Projectile → Prop
  | refl : ReachableFrom p p
  | tail (q : Projectile) : ReachableFrom p q → ReachableFrom p q.step

/-- The state invariant maintained by the program: the integration step is
the fixed `0.01`, the trajectory is nonempty, its last sample carries the
current time while airborne and altitude exactly `0` once landed, and the
sample times are in non-decreasing order. -/
def goodState (p : Projectile) : Prop :=
  p.dt = 0.01 ∧
  p.trajectory ≠ [] ∧
  (p.landed = false → (p.trajectory.getLastD (0, 0, 0)).1 = p.t) ∧
  (p.landed = true → (p.trajectory.getLastD (0, 0, 0)).2.2 = 0) ∧
  List.Chain' (fun a b : ℝ × ℝ × ℝ => a.1 ≤ b.1) p.trajectory

/-! ### Basic unfolding lemmas -/

namespace Projectile

@[simp] lemma integrate_vx (p : Projectile) :
    p.integrate.vx = p.vx + p.accel.1 * p.dt := rfl

@[simp] lemma integrate_vy (p : Projectile) :
    p.integrate.vy = p.vy + p.accel.2 * p.dt := rfl

@[simp] lemma integrate_x (p : Projectile) :
    p.integrate.x = p.x + (p.vx + p.accel.1 * p.dt) * p.dt := rfl

@[simp] lemma integrate_y (p : Projectile) :
    p.integrate.y = p.y + (p.vy + p.accel.2 * p.dt) * p.dt := rfl

@[simp] lemma integrate_t (p : Projectile) :
    p.integrate.t = p.t + p.dt := rfl

@[simp] lemma integrate_trajectory (p : Projectile) :
    p.integrate.trajectory =
      p.trajectory ++
        [(p.t + p.dt, p.x + (p.vx + p.accel.1 * p.dt) * p.dt,
          p.y + (p.vy + p.accel.2 * p.dt) * p.dt)] := rfl

@[simp] lemma integrate_maxHeight (p : Projectile) :
    p.integrate.maxHeight =
      if p.maxHeight < p.y + (p.vy + p.accel.2 * p.dt) * p.dt then
        p.y + (p.vy + p.accel.2 * p.dt) * p.dt
      else p.maxHeight := rfl

@[simp] lemma integrate_landed (p : Projectile) :
    p.integrate.landed = p.landed := rfl

@[simp] lemma integrate_dt (p : Projectile) : p.integrate.dt = p.dt := rfl

@[simp] lemma integrate_mass (p : Projectile) : p.integrate.mass = p.mass := rfl

@[simp] lemma integrate_air (p : Projectile) : p.integrate.air = p.air := rfl

@[simp] lemma integrate_area (p : Projectile) : p.integrate.area = p.area := rfl

@[simp] lemma integrate_flightTime (p : Projectile) :
    p.integrate.flightTime = p.flightTime := rfl

@[simp] lemma integrate_range (p : Projectile) :
    p.integrate.range = p.range := rfl

@[simp] lemma integrate_finalSpeed (p : Projectile) :
    p.integrate.finalSpeed = p.finalSpeed := rfl

lemma landCheck_of_pos (q : Projectile) (h : 0 < q.y) : q.landCheck = q := by
  unfold landCheck
  rw [if_neg (not_le.mpr h)]

lemma landCheck_of_le (q : Projectile) (h : q.y ≤ 0) :
    q.landCheck =
      (let s2 := q.trajectory.getLastD (0, 0, 0)
       let s1 := q.trajectory.dropLast.getLastD (0, 0, 0)
       let frac0 :=
         if s2.2.2 = s1.2.2 then 0 else (0 - s1.2.2) / (s2.2.2 - s1.2.2)
       let frac := clamp frac0 0 1
       let tLand := s1.1 + frac * (s2.1 - s1.1)
       let xLand := s1.2.1 + frac * (s2.2.1 - s1.2.1)
       { q with
         flightTime := tLand
         range := xLand
         finalSpeed := Real.sqrt (q.vx ^ 2 + q.vy ^ 2)
         landed := true
         trajectory := q.trajectory.dropLast ++ [(tLand, xLand, 0)] }) := by
  unfold landCheck
  rw [if_pos h]

lemma step_of_landed (p : Projectile) (h : p.landed = true) : p.step = p := by
  unfold step
  rw [h]
  simp

lemma step_of_not_landed (p : Projectile) (h : p.landed = false) :
    p.step = p.integrate.landCheck := by
  unfold step
  rw [h]
  simp

@[simp] lemma init_vx (a s m h : ℝ) (air : Bool) :
    (init a s m h air).vx = s * Real.cos (a * (Real.pi / 180)) := rfl

@[simp] lemma init_vy (a s m h : ℝ) (air : Bool) :
    (init a s m h air).vy = s * Real.sin (a * (Real.pi / 180)) := rfl

@[simp] lemma init_x (a s m h : ℝ) (air : Bool) : (init a s m h air).x = 0 := rfl

@[simp] lemma init_y (a s m h : ℝ) (air : Bool) : (init a s m h air).y = h := rfl

@[simp] lemma init_t (a s m h : ℝ) (air : Bool) : (init a s m h air).t = 0 := rfl

@[simp] lemma init_dt (a s m h : ℝ) (air : Bool) :
    (init a s m h air).dt = 0.01 := rfl

@[simp] lemma init_trajectory (a s m h : ℝ) (air : Bool) :
    (init a s m h air).trajectory = [(0, 0, h)] := rfl

@[simp] lemma init_landed (a s m h : ℝ) (air : Bool) :
    (init a s m h air).landed = false := rfl

@[simp] lemma init_maxHeight (a s m h : ℝ) (air : Bool) :
    (init a s m h air).maxHeight = h := rfl

@[simp] lemma init_finalSpeed (a s m h : ℝ) (air : Bool) :
    (init a s m h air).finalSpeed = 0 := rfl

@[simp] lemma init_flightTime (a s m h : ℝ) (air : Bool) :
    (init a s m h air).flightTime = 0 := rfl

@[simp] lemma init_range (a s m h : ℝ) (air : Bool) :
    (init a s m h air).range = 0 := rfl

@[simp] lemma init_mass (a s m h : ℝ) (air : Bool) :
    (init a s m h air).mass = m := rfl

@[simp] lemma init_y0 (a s m h : ℝ) (air : Bool) :
    (init a s m h air).y0 = h := rfl

@[simp] lemma init_air (a s m h : ℝ) (air : Bool) :
    (init a s m h air).air = air := rfl

lemma init_area (a s m h : ℝ) (air : Bool) :
    (init a s m h air).area =
      if m / 1000 ≤ 0 then 0.01
      else
        Real.pi * ((3 * (m / 1000) / (4 * Real.pi)) ^ ((1 : ℝ) / 3)) *
          ((3 * (m / 1000) / (4 * Real.pi)) ^ ((1 : ℝ) / 3)) := rfl

lemma accel_of_nodrag (p : Projectile) (h : ¬(p.air = true ∧ 0 < p.vMag)) :
    p.accel = (0, -gEarth) := by
  unfold accel
  rw [if_neg h]

lemma accel_of_drag (p : Projectile) (h : p.air = true ∧ 0 < p.vMag) :
    p.accel =
      (-(0.5 * airDensity * dragCoeff * p.area * p.vMag * p.vMag *
          (p.vx / p.vMag)) / p.mass,
       -(0.5 * airDensity * dragCoeff * p.area * p.vMag * p.vMag *
          (p.vy / p.vMag)) / p.mass - gEarth) := by
  unfold accel
  rw [if_pos h]

lemma step_mass (p : Projectile) : p.step.mass = p.mass := by
  unfold step
  split
  · rfl
  · unfold landCheck
    split <;> rfl

lemma step_dt (p : Projectile) : p.step.dt = p.dt := by
  unfold step
  split
  · rfl
  · unfold landCheck
    split <;> rfl

lemma step_air (p : Projectile) : p.step.air = p.air := by
  unfold step
  split
  · rfl
  · unfold landCheck
    split <;> rfl

end Projectile

/-! ### Shared helper lemmas -/

lemma clamp_nonneg (v : ℝ) : 0 ≤ clamp v 0 1 := le_max_left 0 (min 1 v)

lemma clamp_le_one (v : ℝ) : clamp v 0 1 ≤ 1 :=
  max_le zero_le_one (min_le_left 1 v)

lemma getLast?_eq_some_getLastD {α : Type} (l : List α) (d : α) (h : l ≠ []) :
    l.getLast? = some (l.getLastD d) := by
  cases hgl : l.getLast? with
  | none => exact absurd (List.getLast?_eq_none_iff.mp hgl) h
  | some b =>
    rw [List.getLastD_eq_getLast?, hgl]
    rfl

lemma chain'_concat_of_getLastD {α : Type} {R : α → α → Prop} (l : List α)
    (a d : α) (hne : l ≠ []) (hc : List.Chain' R l) (hR : R (l.getLastD d) a) :
    List.Chain' R (l ++ [a]) := by
  rw [List.chain'_append]
  refine ⟨hc, List.chain'_singleton a, ?_⟩
  intro x hx y hy
  simp only [List.head?_cons, Option.mem_def, Option.some.injEq] at hy
  subst hy
  rw [getLast?_eq_some_getLastD l d hne] at hx
  simp only [Option.mem_def, Option.some.injEq] at hx
  subst hx
  exact hR

namespace Projectile

/-- Full characterization of a non-landing step: the new altitude stays
positive, so landing detection does not fire. -/
lemma step_fly_eq (p : Projectile) (hl : p.landed = false)
    (hy : 0 < p.y + (p.vy + p.accel.2 * p.dt) * p.dt) :
    p.step = p.integrate := by
  rw [step_of_not_landed p hl, landCheck_of_pos]
  rw [integrate_y]
  exact hy

/-- Full characterization of a landing step: the new altitude is `≤ 0`,
so the interpolation code fires. -/
lemma step_land_eq (p : Projectile) (hl : p.landed = false)
    (hy : p.y + (p.vy + p.accel.2 * p.dt) * p.dt ≤ 0) :
    p.step =
      (let s1 := p.trajectory.getLastD (0, 0, 0)
       let vx2 := p.vx + p.accel.1 * p.dt
       let vy2 := p.vy + p.accel.2 * p.dt
       let x2 := p.x + vx2 * p.dt
       let y2 := p.y + vy2 * p.dt
       let frac0 := if y2 = s1.2.2 then 0 else (0 - s1.2.2) / (y2 - s1.2.2)
       let frac := clamp frac0 0 1
       let tLand := s1.1 + frac * ((p.t + p.dt) - s1.1)
       let xLand := s1.2.1 + frac * (x2 - s1.2.1)
       { p with
         vx := vx2, vy := vy2, x := x2, y := y2, t := p.t + p.dt
         maxHeight := if p.maxHeight < y2 then y2 else p.maxHeight
         flightTime := tLand
         range := xLand
         finalSpeed := Real.sqrt (vx2 ^ 2 + vy2 ^ 2)
         landed := true
         trajectory := p.trajectory ++ [(tLand, xLand, 0)] }) := by
  rw [step_of_not_landed p hl, landCheck_of_le _ (by rw [integrate_y]; exact hy)]
  simp only [integrate_trajectory, integrate_vx, integrate_vy, integrate_x,
    integrate_y, integrate_t, integrate_maxHeight, List.dropLast_concat,
    List.getLastD_concat]
  rfl

end Projectile

lemma goodState_init (a s m h : ℝ) (air : Bool) :
    goodState (Projectile.init a s m h air) := by
  refine ⟨rfl, by simp, ?_, by simp, by simp⟩
  intro _
  rfl

lemma goodState_step (p : Projectile) (hp : goodState p) : goodState p.step := by
  obtain ⟨hdt, hne, hlast, hland, hchain⟩ := hp
  cases hl : p.landed with
  | true =>
    rw [Projectile.step_of_landed p hl]
    exact ⟨hdt, hne, hlast, hland, hchain⟩
  | false =>
    have hlt : (p.trajectory.getLastD (0, 0, 0)).1 = p.t := hlast hl
    rcases le_or_lt (p.y + (p.vy + p.accel.2 * p.dt) * p.dt) 0 with hy | hy
    · rw [Projectile.step_land_eq p hl hy]
      simp only
      set s1 := p.trajectory.getLastD (0, 0, 0) with hs1
      set y2 := p.y + (p.vy + p.accel.2 * p.dt) * p.dt with hy2
      set frac0 := if y2 = s1.2.2 then (0 : ℝ) else (0 - s1.2.2) / (y2 - s1.2.2)
        with hfrac0
      set tLand := s1.1 + clamp frac0 0 1 * ((p.t + p.dt) - s1.1) with htl
      refine ⟨hdt, by simp, by simp, ?_, ?_⟩
      · intro _
        rw [List.getLastD_concat]
      · refine chain'_concat_of_getLastD p.trajectory _ (0, 0, 0) hne hchain ?_
        have h1 : 0 ≤ clamp frac0 0 1 * ((p.t + p.dt) - p.t) := by
          have hcn := clamp_nonneg frac0
          nlinarith [hdt, hcn]
        dsimp only
        rw [htl, hlt]
        linarith [h1]
    · rw [Projectile.step_fly_eq p hl hy]
      refine ⟨hdt, by simp, ?_, by simp [hl], ?_⟩
      · intro _
        rw [Projectile.integrate_trajectory, List.getLastD_concat,
          Projectile.integrate_t]
      · rw [Projectile.integrate_trajectory]
        refine chain'_concat_of_getLastD p.trajectory _ (0, 0, 0) hne hchain ?_
        dsimp only
        rw [hlt]
        nlinarith [hdt]

lemma goodState_of_reachable (p : Projectile) (hp : Reachable p) :
    goodState p := by
  induction hp with
  | base a s m h air => exact goodState_init a s m h air
  | next q _ ih => exact goodState_step q ih

namespace Projectile

@[simp] lemma landCheck_vx (q : Projectile) : q.landCheck.vx = q.vx := by
  unfold landCheck
  split <;> rfl

@[simp] lemma landCheck_vy (q : Projectile) : q.landCheck.vy = q.vy := by
  unfold landCheck
  split <;> rfl

@[simp] lemma landCheck_x (q : Projectile) : q.landCheck.x = q.x := by
  unfold landCheck
  split <;> rfl

@[simp] lemma landCheck_y (q : Projectile) : q.landCheck.y = q.y := by
  unfold landCheck
  split <;> rfl

@[simp] lemma landCheck_t (q : Projectile) : q.landCheck.t = q.t := by
  unfold landCheck
  split <;> rfl

@[simp] lemma landCheck_maxHeight (q : Projectile) :
    q.landCheck.maxHeight = q.maxHeight := by
  unfold landCheck
  split <;> rfl

lemma step_vx_eq (p : Projectile) (hl : p.landed = false) :
    p.step.vx = p.vx + p.accel.1 * p.dt := by
  rw [step_of_not_landed p hl, landCheck_vx, integrate_vx]

lemma step_vy_eq (p : Projectile) (hl : p.landed = false) :
    p.step.vy = p.vy + p.accel.2 * p.dt := by
  rw [step_of_not_landed p hl, landCheck_vy, integrate_vy]

lemma step_x_eq (p : Projectile) (hl : p.landed = false) :
    p.step.x = p.x + (p.vx + p.accel.1 * p.dt) * p.dt := by
  rw [step_of_not_landed p hl, landCheck_x, integrate_x]

lemma step_y_eq (p : Projectile) (hl : p.landed = false) :
    p.step.y = p.y + (p.vy + p.accel.2 * p.dt) * p.dt := by
  rw [step_of_not_landed p hl, landCheck_y, integrate_y]

lemma step_t_eq (p : Projectile) (hl : p.landed = false) :
    p.step.t = p.t + p.dt := by
  rw [step_of_not_landed p hl, landCheck_t, integrate_t]

/-- The branch condition of the drag computation, rephrased: since
`v = sqrt(...) ≥ 0`, its negation is exactly "flag off or `v = 0`". -/
lemma not_drag_iff (p : Projectile) :
    ¬(p.air = true ∧ 0 < p.vMag) ↔ (p.air = false ∨ p.vMag = 0) := by
  have hv : 0 ≤ p.vMag := Real.sqrt_nonneg _
  constructor
  · intro h
    by_cases ha : p.air = true
    · refine Or.inr ?_
      rcases eq_or_lt_of_le hv with h0 | h0
      · exact h0.symm
      · exact absurd ⟨ha, h0⟩ h
    · exact Or.inl (Bool.not_eq_true _ ▸ Bool.of_not_eq_true ha)
  · rintro (h | h) ⟨ha, hpos⟩
    · rw [ha] at h
      exact Bool.true_eq_false ▸ h
    · exact absurd h (ne_of_gt hpos)

end Projectile

/-- C1: one `step()` of a non-landed projectile computes the acceleration
`(0, -9.81)` when the air flag is off or the speed magnitude
`v = hypot(vx, vy)` is zero, and the drag acceleration
`-(Fd·(vx/v, vy/v))/mass` with `Fd = 0.5·1.225·0.47·area·v²` and gravity
subtracted vertically when the flag is on and `v > 0`; it then advances with
fixed `dt = 0.01`, updating velocity before position, advances `t` by `dt`,
and appends the new `(t, x, y)` sample to the trajectory. -/
theorem claim1_step_accel_euler (p : Projectile) (ax ay : ℝ)
    (hl : p.landed = false) (hdt : p.dt = 0.01)
    (hnodrag : (p.air = false ∨ Real.sqrt (p.vx ^ 2 + p.vy ^ 2) = 0) →
      ax = 0 ∧ ay = -9.81)
    (hdrag : p.air = true → 0 < Real.sqrt (p.vx ^ 2 + p.vy ^ 2) →
      ax = -(0.5 * 1.225 * 0.47 * p.area * Real.sqrt (p.vx ^ 2 + p.vy ^ 2) ^ 2 *
          (p.vx / Real.sqrt (p.vx ^ 2 + p.vy ^ 2))) / p.mass ∧
      ay = -(0.5 * 1.225 * 0.47 * p.area * Real.sqrt (p.vx ^ 2 + p.vy ^ 2) ^ 2 *
          (p.vy / Real.sqrt (p.vx ^ 2 + p.vy ^ 2))) / p.mass - 9.81) :
    p.step.vx = p.vx + ax * 0.01 ∧
    p.step.vy = p.vy + ay * 0.01 ∧
    p.step.x = p.x + p.step.vx * 0.01 ∧
    p.step.y = p.y + p.step.vy * 0.01 ∧
    p.step.t = p.t + 0.01 ∧
    p.step.trajectory.length = p.trajectory.length + 1 ∧
    (0 < p.step.y →
      p.step.trajectory = p.trajectory ++ [(p.step.t, p.step.x, p.step.y)]) := by
  have hax : p.accel.1 = ax := by
    by_cases ha : p.air = true ∧ 0 < p.vMag
    · rw [Projectile.accel_of_drag p ha, (hdrag ha.1 ha.2).1]
      dsimp only
      unfold Projectile.vMag airDensity dragCoeff
      ring
    · rw [Projectile.accel_of_nodrag p ha,
        (hnodrag ((Projectile.not_drag_iff p).mp ha)).1]
  have hay : p.accel.2 = ay := by
    by_cases ha : p.air = true ∧ 0 < p.vMag
    · rw [Projectile.accel_of_drag p ha, (hdrag ha.1 ha.2).2]
      dsimp only
      unfold Projectile.vMag airDensity dragCoeff gEarth
      ring
    · rw [Projectile.accel_of_nodrag p ha,
        (hnodrag ((Projectile.not_drag_iff p).mp ha)).2]
      unfold gEarth
      norm_num
  refine ⟨?_, ?_, ?_, ?_, ?_, ?_, ?_⟩
  · rw [Projectile.step_vx_eq p hl, hax, hdt]
  · rw [Projectile.step_vy_eq p hl, hay, hdt]
  · rw [Projectile.step_x_eq p hl, Projectile.step_vx_eq p hl, hdt]
  · rw [Projectile.step_y_eq p hl, Projectile.step_vy_eq p hl, hdt]
  · rw [Projectile.step_t_eq p hl, hdt]
  · rcases le_or_lt (p.y + (p.vy + p.accel.2 * p.dt) * p.dt) 0 with hy | hy
    · rw [Projectile.step_land_eq p hl hy]
      simp
    · rw [Projectile.step_fly_eq p hl hy]
      simp
  · intro hpos
    rcases le_or_lt (p.y + (p.vy + p.accel.2 * p.dt) * p.dt) 0 with hy | hy
    · rw [Projectile.step_y_eq p hl] at hpos
      linarith
    · rw [Projectile.step_fly_eq p hl hy]
      simp

/-- Witness for C1 at a concrete non-landed state (air flag off). -/
theorem claim1_step_accel_euler_witness :
    (let p : Projectile :=
      { angle := 0, v0 := 0, mass := 1, y0 := 5, air := false,
        vx := 0, vy := 0, x := 0, y := 5, t := 0, dt := 0.01,
        trajectory := [(0, 0, 5)], landed := false,
        maxHeight := 5, finalSpeed := 0, flightTime := 0, range := 0,
        area := 0.01 }
     p.step.t = p.t + 0.01) := by
  have h := claim1_step_accel_euler
    { angle := 0, v0 := 0, mass := 1, y0 := 5, air := false,
      vx := 0, vy := 0, x := 0, y := 5, t := 0, dt := 0.01,
      trajectory := [(0, 0, 5)], landed := false,
      maxHeight := 5, finalSpeed := 0, flightTime := 0, range := 0,
      area := 0.01 }
    0 (-9.81) rfl rfl (fun _ => ⟨rfl, rfl⟩)
    (fun hair _ => by simp at hair)
  exact h.2.2.2.2.1

/-- C5: constructing a projectile with mass `m` derives the cross-sectional
area `π·r²` with `r = (3·(m/1000)/(4π))^(1/3)` when `m/1000 > 0` — a strictly
positive area — and falls back to exactly `0.01` when `m ≤ 0`; the
construction is total. -/
theorem claim5_area_derivation (angleDeg speed m y0 : ℝ) (air : Bool) :
    (0 < m / 1000 →
      (Projectile.init angleDeg speed m y0 air).area =
          Real.pi * ((3 * (m / 1000) / (4 * Real.pi)) ^ ((1 : ℝ) / 3)) ^ 2 ∧
        0 < (Projectile.init angleDeg speed m y0 air).area) ∧
    (m ≤ 0 → (Projectile.init angleDeg speed m y0 air).area = 0.01) := by
  constructor
  · intro hv
    rw [Projectile.init_area, if_neg (not_le.mpr hv)]
    have hc : 0 < 3 * (m / 1000) / (4 * Real.pi) := by positivity
    have hr : 0 < (3 * (m / 1000) / (4 * Real.pi)) ^ ((1 : ℝ) / 3) :=
      Real.rpow_pos_of_pos hc _
    constructor
    · ring
    · positivity
  · intro hm
    rw [Projectile.init_area, if_pos]
    exact div_nonpos_of_nonpos_of_nonneg hm (by norm_num)

/-- Witness for C5 at `m = 2` (positive-volume branch). -/
theorem claim5_area_derivation_witness :
    0 < (2 : ℝ) / 1000 ∧ 0 < (Projectile.init 45 25 2 0 true).area :=
  ⟨by norm_num, ((claim5_area_derivation 45 25 2 0 true).1 (by norm_num)).2⟩

lemma clamp_if_eq (c : Prop) [Decidable c] (a : ℝ) :
    clamp (if c then 0 else a) 0 1 = if c then 0 else clamp a 0 1 := by
  split
  · unfold clamp
    norm_num
  · rfl

lemma interp_bounds (t1 t2 f : ℝ) (h0 : 0 ≤ f) (h1 : f ≤ 1) (h12 : t1 ≤ t2) :
    t1 ≤ t1 + f * (t2 - t1) ∧ t1 + f * (t2 - t1) ≤ t2 := by
  constructor <;> nlinarith

/-- C2: when a `step()` produces a new sample with `y ≤ 0`, landing fires:
with the previous sample `(t1,x1,y1)` and the new sample `(t2,x2,y2)`,
`frac = (0−y1)/(y2−y1)` clamped to `[0,1]` (`0` when `y2 = y1`),
`flight_time = t1 + frac·(t2−t1)`, `range = x1 + frac·(x2−x1)`,
`final_speed` is the uninterpolated `hypot(vx, vy)` of the last integration
step, `landed` is set, and the last trajectory sample is replaced by
`(flight_time, range, 0.0)`. -/
theorem claim2_step_landing (p : Projectile) (t1 x1 y1 vx2 vy2 x2 y2 : ℝ)
    (hl : p.landed = false) (hdt : p.dt = 0.01)
    (hlast : p.trajectory.getLastD (0, 0, 0) = (t1, x1, y1))
    (hvx : vx2 = p.vx + p.accel.1 * 0.01)
    (hvy : vy2 = p.vy + p.accel.2 * 0.01)
    (hx2 : x2 = p.x + vx2 * 0.01)
    (hy2 : y2 = p.y + vy2 * 0.01)
    (hy : y2 ≤ 0) :
    p.step.landed = true ∧
    p.step.flightTime =
      t1 + (if y2 = y1 then 0 else clamp ((0 - y1) / (y2 - y1)) 0 1) *
        ((p.t + 0.01) - t1) ∧
    p.step.range =
      x1 + (if y2 = y1 then 0 else clamp ((0 - y1) / (y2 - y1)) 0 1) *
        (x2 - x1) ∧
    p.step.finalSpeed = Real.sqrt (vx2 ^ 2 + vy2 ^ 2) ∧
    p.step.trajectory =
      p.trajectory ++ [(p.step.flightTime, p.step.range, 0)] := by
  subst hvx hvy hx2 hy2
  have hy' : p.y + (p.vy + p.accel.2 * p.dt) * p.dt ≤ 0 := by
    rw [hdt]
    exact hy
  rw [Projectile.step_land_eq p hl hy']
  dsimp only
  rw [hlast, hdt]
  dsimp only
  rw [clamp_if_eq]
  exact ⟨rfl, rfl, rfl, rfl, rfl⟩

/-- Witness for C2: a projectile dropped from altitude `0` with zero
velocity and the air flag off lands on the first step. -/
theorem claim2_step_landing_witness :
    (let p : Projectile :=
      { angle := 0, v0 := 0, mass := 1, y0 := 0, air := false,
        vx := 0, vy := 0, x := 0, y := 0, t := 0, dt := 0.01,
        trajectory := [(0, 0, 0)], landed := false,
        maxHeight := 0, finalSpeed := 0, flightTime := 0, range := 0,
        area := 0.01 }
     p.step.landed = true) := by
  have hacc :
      ({ angle := 0, v0 := 0, mass := 1, y0 := 0, air := false,
         vx := 0, vy := 0, x := 0, y := 0, t := 0, dt := 0.01,
         trajectory := [(0, 0, 0)], landed := false,
         maxHeight := 0, finalSpeed := 0, flightTime := 0, range := 0,
         area := 0.01 } : Projectile).accel = (0, -gEarth) := by
    apply Projectile.accel_of_nodrag
    simp
  have h := claim2_step_landing
    { angle := 0, v0 := 0, mass := 1, y0 := 0, air := false,
      vx := 0, vy := 0, x := 0, y := 0, t := 0, dt := 0.01,
      trajectory := [(0, 0, 0)], landed := false,
      maxHeight := 0, finalSpeed := 0, flightTime := 0, range := 0,
      area := 0.01 }
    0 0 0 0 (-0.0981) 0 (-0.000981) rfl rfl rfl
    (by rw [hacc]; norm_num)
    (by rw [hacc]; unfold gEarth; norm_num)
    (by norm_num) (by norm_num) (by norm_num)
  exact h.1

/-- C3: once a projectile is landed, `step()` is a no-op (the whole state,
trajectory included, is unchanged); and for every reachable landed state,
the final trajectory sample's altitude is exactly `0` and `flight_time` lies
between the time of the second-to-last pre-landing sample (the last sample
of the predecessor state) and that of the last pre-landing sample
(`t + dt` of the predecessor). -/
theorem claim3_landed_noop_and_invariant :
    (∀ p : Projectile, p.landed = true → p.step = p) ∧
    (∀ p : Projectile, Reachable p → p.landed = true →
      (p.trajectory.getLastD (0, 0, 0)).2.2 = 0 ∧
      ∃ q : Projectile, Reachable q ∧ q.landed = false ∧ q.step = p ∧
        (q.trajectory.getLastD (0, 0, 0)).1 ≤ p.flightTime ∧
        p.flightTime ≤ q.t + q.dt) := by
  constructor
  · intro p hl
    exact Projectile.step_of_landed p hl
  · intro p hp
    induction hp with
    | base a s m h air =>
      intro hl
      rw [Projectile.init_landed] at hl
      cases hl
    | next q hq ih =>
      intro hl
      by_cases hql : q.landed = true
      · rw [Projectile.step_of_landed q hql] at hl ⊢
        exact ih hl
      · have hql' : q.landed = false := by
          simpa using hql
        rcases le_or_lt (q.y + (q.vy + q.accel.2 * q.dt) * q.dt) 0 with hy | hy
        · have hs := Projectile.step_land_eq q hql' hy
          dsimp only at hs
          obtain ⟨hdt, hne, hlastt, -, -⟩ := goodState_of_reachable q hq
          have ht1 : (q.trajectory.getLastD (0, 0, 0)).1 = q.t := hlastt hql'
          have hdt' : q.t ≤ q.t + q.dt := by
            rw [hdt]
            linarith
          rw [hs]
          dsimp only
          refine ⟨by rw [List.getLastD_concat], q, hq, hql', hs, ?_, ?_⟩
          · rw [ht1]
            exact (interp_bounds q.t (q.t + q.dt) _ (clamp_nonneg _)
              (clamp_le_one _) hdt').1
          · rw [ht1]
            exact (interp_bounds q.t (q.t + q.dt) _ (clamp_nonneg _)
              (clamp_le_one _) hdt').2
        · have hs := Projectile.step_fly_eq q hql' hy
          rw [hs] at hl
          rw [Projectile.integrate_landed, hql'] at hl
          cases hl

/-- C4: the recorded trajectory of every reachable state has non-decreasing
sample times, and every operation only appends: one `step` extends the
trajectory by a (possibly replaced-in-place) suffix, never touching the
previously recorded samples. -/
theorem claim4_trajectory_monotone_append_only :
    (∀ p : Projectile, Reachable p →
      List.Chain' (fun a b : ℝ × ℝ × ℝ => a.1 ≤ b.1) p.trajectory) ∧
    (∀ p : Projectile, ∃ tail, p.step.trajectory = p.trajectory ++ tail) := by
  constructor
  · intro p hp
    exact (goodState_of_reachable p hp).2.2.2.2
  · intro p
    by_cases hl : p.landed = true
    · exact ⟨[], by rw [Projectile.step_of_landed p hl, List.append_nil]⟩
    · have hl' : p.landed = false := by simpa using hl
      rcases le_or_lt (p.y + (p.vy + p.accel.2 * p.dt) * p.dt) 0 with hy | hy
      · rw [Projectile.step_land_eq p hl' hy]
        exact ⟨_, rfl⟩
      · rw [Projectile.step_fly_eq p hl' hy]
        exact ⟨_, rfl⟩

/-- Witness for C4's reachability hypothesis at a freshly constructed
projectile. -/
theorem claim4_trajectory_monotone_append_only_witness :
    List.Chain' (fun a b : ℝ × ℝ × ℝ => a.1 ≤ b.1)
      (Projectile.init 45 25 1 0 true).trajectory :=
  claim4_trajectory_monotone_append_only.1 _ (Reachable.base 45 25 1 0 true)

/-- Witness for C3 at a concrete reachable landed state: a projectile
launched from the ground with zero speed lands on the first step. -/
theorem claim3_landed_noop_and_invariant_witness :
    (((Projectile.init 0 0 1 0 false).step.trajectory.getLastD
        (0, 0, 0)).2.2 = 0) := by
  have hacc : (Projectile.init 0 0 1 0 false).accel = (0, -gEarth) :=
    Projectile.accel_of_nodrag _ (by simp)
  have hy : (Projectile.init 0 0 1 0 false).y +
      ((Projectile.init 0 0 1 0 false).vy +
        (Projectile.init 0 0 1 0 false).accel.2 *
          (Projectile.init 0 0 1 0 false).dt) *
        (Projectile.init 0 0 1 0 false).dt ≤ 0 := by
    rw [hacc]
    simp only [Projectile.init_y, Projectile.init_vy, Projectile.init_dt]
    unfold gEarth
    norm_num
  have hl : (Projectile.init 0 0 1 0 false).step.landed = true := by
    rw [Projectile.step_land_eq _ (Projectile.init_landed 0 0 1 0 false) hy]
  exact (claim3_landed_noop_and_invariant.2 _
    (Reachable.next _ (Reachable.base 0 0 1 0 false)) hl).1

/-! ### Fold lemmas for the bounds computation -/

lemma if_gt_eq_max (m x : ℝ) : (if x > m then x else m) = max m x := by
  by_cases h : x > m
  · rw [if_pos h, max_eq_right (le_of_lt h)]
  · rw [if_neg h, max_eq_left (le_of_not_lt h)]

lemma foldSample_eq (l : List (ℝ × ℝ × ℝ)) (a : ℝ × ℝ) :
    l.foldl
        (fun (a : ℝ × ℝ) s =>
          (if s.2.1 > a.1 then s.2.1 else a.1,
           if s.2.2 > a.2 then s.2.2 else a.2)) a =
      (l.foldl (fun m s => max m s.2.1) a.1,
       l.foldl (fun m s => max m s.2.2) a.2) := by
  induction l generalizing a with
  | nil => rfl
  | cons s l ih =>
    rw [List.foldl_cons, List.foldl_cons, List.foldl_cons, ih]
    rw [if_gt_eq_max, if_gt_eq_max]

lemma foldProj_eq (ps : List Projectile) (a : ℝ × ℝ) :
    ps.foldl
        (fun (acc : ℝ × ℝ) p =>
          p.trajectory.foldl
            (fun (a : ℝ × ℝ) s =>
              (if s.2.1 > a.1 then s.2.1 else a.1,
               if s.2.2 > a.2 then s.2.2 else a.2))
            acc) a =
      (ps.foldl (fun m p => p.trajectory.foldl (fun m s => max m s.2.1) m) a.1,
       ps.foldl (fun m p => p.trajectory.foldl (fun m s => max m s.2.2) m) a.2)
      := by
  induction ps generalizing a with
  | nil => rfl
  | cons p ps ih =>
    rw [List.foldl_cons, List.foldl_cons, List.foldl_cons, foldSample_eq, ih]

lemma foldl_flatMap {α β : Type} (l : List α) (f : α → List β) (g : ℝ → β → ℝ)
    (i : ℝ) :
    (l.flatMap f).foldl g i = l.foldl (fun m p => (f p).foldl g m) i := by
  induction l generalizing i with
  | nil => rfl
  | cons p l ih =>
    rw [List.flatMap_cons, List.foldl_append, List.foldl_cons, ih]

/-- C6: `compute_bounds` scans every sample of every trajectory and returns
`(max(10, largest x)·1.2, max(5, largest y)·1.2)`, each floored to `1e-3`;
`clear()` empties the collection, clears the selection, and the bounds of the
cleared scene are exactly `(12, 6)`. -/
theorem claim6_compute_bounds_and_clear :
    (∀ ps : List Projectile,
      computeBounds ps =
        (max ((((ps.flatMap (fun p => p.trajectory)).map
            (fun s => s.2.1)).foldl max 10) * 1.2) 1e-3,
         max ((((ps.flatMap (fun p => p.trajectory)).map
            (fun s => s.2.2)).foldl max 5) * 1.2) 1e-3)) ∧
    (∀ s : Scene,
      (clearAll s).projectiles = [] ∧
      (clearAll s).selectedIndex = none ∧
      computeBounds (clearAll s).projectiles = (12, 6)) := by
  constructor
  · intro ps
    unfold computeBounds
    rw [foldProj_eq]
    rw [List.foldl_map, List.foldl_map, foldl_flatMap, foldl_flatMap]
  · intro s
    refine ⟨rfl, rfl, ?_⟩
    unfold clearAll computeBounds
    dsimp only [List.foldl_nil]
    norm_num

lemma le_foldl_max {α : Type} (f : α → ℝ) (l : List α) (i : ℝ) :
    i ≤ l.foldl (fun m s => max m (f s)) i := by
  induction l generalizing i with
  | nil => exact le_rfl
  | cons s l ih => exact le_trans (le_max_left i (f s)) (ih (max i (f s)))

lemma foldl_max_mono_init {α : Type} (f : α → ℝ) (l : List α) {i j : ℝ}
    (hij : i ≤ j) :
    l.foldl (fun m s => max m (f s)) i ≤ l.foldl (fun m s => max m (f s)) j := by
  induction l generalizing i j with
  | nil => exact hij
  | cons s l ih => exact ih (max_le_max hij le_rfl)

lemma foldl_max_append_le {α : Type} (f : α → ℝ) (l tail : List α) (i : ℝ) :
    l.foldl (fun m s => max m (f s)) i ≤
      (l ++ tail).foldl (fun m s => max m (f s)) i := by
  rw [List.foldl_append]
  exact le_foldl_max f tail _

lemma foldl_traj_max_mono (f : ℝ × ℝ × ℝ → ℝ) (ps ps' : List Projectile)
    (h : List.Forall₂
      (fun p q => ∃ tail, q.trajectory = p.trajectory ++ tail) ps ps')
    {i j : ℝ} (hij : i ≤ j) :
    ps.foldl (fun m p => p.trajectory.foldl (fun m s => max m (f s)) m) i ≤
      ps'.foldl (fun m p => p.trajectory.foldl (fun m s => max m (f s)) m) j
      := by
  induction h generalizing i j with
  | nil => exact hij
  | cons hpq hrest ih =>
    rw [List.foldl_cons, List.foldl_cons]
    apply ih
    obtain ⟨tail, htail⟩ := hpq
    rw [htail]
    exact le_trans (foldl_max_mono_init f _ hij) (foldl_max_append_le f _ tail j)

/-- C7: for a fixed set of projectiles whose trajectories only grow by
appended samples, both components of `compute_bounds` are monotonically
non-decreasing: appending samples can only enlarge or preserve each bound. -/
theorem claim7_bounds_monotone (ps ps' : List Projectile)
    (h : List.Forall₂
      (fun p q => ∃ tail, q.trajectory = p.trajectory ++ tail) ps ps') :
    (computeBounds ps).1 ≤ (computeBounds ps').1 ∧
    (computeBounds ps).2 ≤ (computeBounds ps').2 := by
  unfold computeBounds
  rw [foldProj_eq, foldProj_eq]
  dsimp only
  constructor
  · refine max_le_max ?_ le_rfl
    refine mul_le_mul_of_nonneg_right ?_ (by norm_num)
    exact foldl_traj_max_mono (fun s => s.2.1) ps ps' h le_rfl
  · refine max_le_max ?_ le_rfl
    refine mul_le_mul_of_nonneg_right ?_ (by norm_num)
    exact foldl_traj_max_mono (fun s => s.2.2) ps ps' h le_rfl

/-- Witness for C7: a single projectile whose trajectory gains one sample. -/
theorem claim7_bounds_monotone_witness :
    (let p : Projectile :=
      { angle := 0, v0 := 0, mass := 1, y0 := 0, air := false,
        vx := 0, vy := 0, x := 0, y := 0, t := 0, dt := 0.01,
        trajectory := [(0, 0, 0)], landed := false,
        maxHeight := 0, finalSpeed := 0, flightTime := 0, range := 0,
        area := 0.01 }
     let p' : Projectile := { p with trajectory := [(0, 0, 0), (1, 1, 1)] }
     (computeBounds [p]).1 ≤ (computeBounds [p']).1 ∧
       (computeBounds [p]).2 ≤ (computeBounds [p']).2) :=
  claim7_bounds_monotone _ _
    (List.Forall₂.cons ⟨[(1, 1, 1)], rfl⟩ List.Forall₂.nil)

/-- Counterexample to C8: the code updates `max_height` on every step
(main.py lines 121-122), before any landing.  A projectile launched straight
up changes its `max_height` on the very first (non-landing) step. -/
theorem claim8_counterexample :
    (Projectile.init 90 10 1 0 false).step.landed = false ∧
    (Projectile.init 90 10 1 0 false).step.maxHeight ≠
      (Projectile.init 90 10 1 0 false).maxHeight := by
  have hacc : (Projectile.init 90 10 1 0 false).accel = (0, -gEarth) :=
    Projectile.accel_of_nodrag _ (by simp)
  have hvy : (Projectile.init 90 10 1 0 false).vy = 10 := by
    rw [Projectile.init_vy]
    have h90 : (90 : ℝ) * (Real.pi / 180) = Real.pi / 2 := by ring
    rw [h90, Real.sin_pi_div_two]
    norm_num
  have hy : 0 < (Projectile.init 90 10 1 0 false).y +
      ((Projectile.init 90 10 1 0 false).vy +
        (Projectile.init 90 10 1 0 false).accel.2 *
          (Projectile.init 90 10 1 0 false).dt) *
        (Projectile.init 90 10 1 0 false).dt := by
    rw [hacc, hvy]
    simp only [Projectile.init_y, Projectile.init_dt]
    unfold gEarth
    norm_num
  constructor
  · rw [Projectile.step_fly_eq _ (Projectile.init_landed 90 10 1 0 false) hy,
      Projectile.integrate_landed, Projectile.init_landed]
  · rw [Projectile.step_fly_eq _ (Projectile.init_landed 90 10 1 0 false) hy,
      Projectile.integrate_maxHeight, hacc, hvy]
    simp only [Projectile.init_y, Projectile.init_dt,
      Projectile.init_maxHeight]
    unfold gEarth
    norm_num

/-- C8 as amended: the metrics `flight_time`, `range` and `final_speed`
(but not `max_height`, which is a running maximum updated on every step)
stay at their sentinel value `0` until landing, and no non-landing step
changes any of the three. -/
theorem claim8_metrics_sentinel_amended :
    (∀ p : Projectile, Reachable p → p.landed = false →
      p.flightTime = 0 ∧ p.range = 0 ∧ p.finalSpeed = 0) ∧
    (∀ p : Projectile, p.step.landed = false →
      p.step.flightTime = p.flightTime ∧ p.step.range = p.range ∧
        p.step.finalSpeed = p.finalSpeed) := by
  have hpres : ∀ p : Projectile, p.step.landed = false →
      p.step.flightTime = p.flightTime ∧ p.step.range = p.range ∧
        p.step.finalSpeed = p.finalSpeed := by
    intro p h
    by_cases hl : p.landed = true
    · rw [Projectile.step_of_landed p hl]
      exact ⟨rfl, rfl, rfl⟩
    · have hl' : p.landed = false := by simpa using hl
      rcases le_or_lt (p.y + (p.vy + p.accel.2 * p.dt) * p.dt) 0 with hy | hy
      · rw [Projectile.step_land_eq p hl' hy] at h
        cases h
      · rw [Projectile.step_fly_eq p hl' hy]
        exact ⟨rfl, rfl, rfl⟩
  refine ⟨?_, hpres⟩
  intro p hp
  induction hp with
  | base a s m h air => exact fun _ => ⟨rfl, rfl, rfl⟩
  | next q hq ih =>
    intro hl
    by_cases hql : q.landed = true
    · rw [Projectile.step_of_landed q hql] at hl ⊢
      exact ih hl
    · have hql' : q.landed = false := by simpa using hql
      obtain ⟨h1, h2, h3⟩ := hpres q hl
      obtain ⟨g1, g2, g3⟩ := ih hql'
      rw [h1, h2, h3]
      exact ⟨g1, g2, g3⟩

/-- Witness for C8's amended statement at a freshly constructed projectile. -/
theorem claim8_metrics_sentinel_amended_witness :
    (Projectile.init 0 0 1 0 false).flightTime = 0 ∧
    (Projectile.init 0 0 1 0 false).range = 0 ∧
    (Projectile.init 0 0 1 0 false).finalSpeed = 0 :=
  claim8_metrics_sentinel_amended.1 _ (Reachable.base 0 0 1 0 false) rfl

namespace Projectile

lemma stepChecked_eq_step (p : Projectile) (hm : p.mass ≠ 0) :
    p.stepChecked = some p.step := by
  unfold stepChecked
  by_cases hl : p.landed = true
  · rw [hl, Projectile.step_of_landed p hl]
    simp
  · have hl' : p.landed = false := by simpa using hl
    rw [hl', Projectile.step_of_not_landed p hl']
    simp only [Bool.false_eq_true, if_false]
    by_cases ha : p.air = true ∧ 0 < p.vMag
    · rw [if_pos ha, if_neg]
      push_neg
      exact ⟨ne_of_gt ha.2, hm⟩
    · rw [if_neg ha]

end Projectile

lemma mass_of_reachableFrom (p q : Projectile) (h : ReachableFrom p q) :
    q.mass = p.mass := by
  induction h with
  | refl => rfl
  | tail r _ ih => rw [Projectile.step_mass, ih]

/-- C9: `spawn` coerces the mass to at least the positive floor `0.0001`
and the starting height to at least `0` before constructing the projectile;
under that precondition no division by zero ever occurs in a subsequent
`step()` — the checked step (which returns `none` on a zero divisor)
always succeeds along every execution from the spawned state. -/
theorem claim9_spawn_coercion_division_safe (s : Scene)
    (angle speed mass h0 : ℝ) (air : Bool) :
    (spawnProjectile s angle speed mass h0 air).projectiles =
      s.projectiles ++
        [Projectile.init angle speed (max 0.0001 mass) (max 0.0 h0) air] ∧
    0.0001 ≤
      (Projectile.init angle speed (max 0.0001 mass) (max 0.0 h0) air).mass ∧
    0 ≤ (Projectile.init angle speed (max 0.0001 mass) (max 0.0 h0) air).y0 ∧
    ∀ q : Projectile,
      ReachableFrom
        (Projectile.init angle speed (max 0.0001 mass) (max 0.0 h0) air) q →
      q.stepChecked = some q.step := by
  refine ⟨rfl, ?_, ?_, ?_⟩
  · rw [Projectile.init_mass]
    exact le_max_left _ _
  · rw [Projectile.init_y0]
    exact le_max_of_le_left (by norm_num)
  intro q hq
  apply Projectile.stepChecked_eq_step
  rw [mass_of_reachableFrom _ _ hq, Projectile.init_mass]
  have : (0 : ℝ) < max 0.0001 mass := lt_of_lt_of_le (by norm_num)
    (le_max_left _ _)
  exact ne_of_gt this

/-- Witness for C9 at the spawned state itself. -/
theorem claim9_spawn_coercion_division_safe_witness :
    (Projectile.init 45 25 (max 0.0001 0) (max 0.0 0) true).stepChecked =
      some (Projectile.init 45 25 (max 0.0001 0) (max 0.0 0) true).step :=
  (claim9_spawn_coercion_division_safe ⟨[], true, none⟩ 45 25 0 0
    true).2.2.2 _ ReachableFrom.refl

/-- C10 as amended: for a projectile constructed with starting height `0`
and non-positive initial vertical velocity, *provided the air flag is off or
the speed magnitude is zero* (with drag enabled a large drag acceleration
can reverse the first Euler step and push the body upward), the very first
`step()` lands it with `flight_time = 0` and `range = 0`, and the trajectory
is exactly `[(0,0,0), (0,0,0)]`. -/
theorem claim10_first_step_lands_amended (angleDeg speed m : ℝ) (air : Bool)
    (hvy : (Projectile.init angleDeg speed m 0 air).vy ≤ 0)
    (hcase : air = false ∨ (Projectile.init angleDeg speed m 0 air).vMag = 0) :
    (Projectile.init angleDeg speed m 0 air).step.landed = true ∧
    (Projectile.init angleDeg speed m 0 air).step.flightTime = 0 ∧
    (Projectile.init angleDeg speed m 0 air).step.range = 0 ∧
    (Projectile.init angleDeg speed m 0 air).step.trajectory =
      [((0 : ℝ), (0 : ℝ), (0 : ℝ)), ((0 : ℝ), (0 : ℝ), (0 : ℝ))] := by
  have hacc : (Projectile.init angleDeg speed m 0 air).accel = (0, -gEarth) := by
    apply Projectile.accel_of_nodrag
    rintro ⟨ha, hv⟩
    rcases hcase with hc | hc
    · rw [Projectile.init_air, hc] at ha
      cases ha
    · exact absurd hc (ne_of_gt hv)
  have hylt : (Projectile.init angleDeg speed m 0 air).y +
      ((Projectile.init angleDeg speed m 0 air).vy +
        (Projectile.init angleDeg speed m 0 air).accel.2 *
          (Projectile.init angleDeg speed m 0 air).dt) *
        (Projectile.init angleDeg speed m 0 air).dt < 0 := by
    rw [hacc]
    simp only [Projectile.init_y, Projectile.init_dt, Projectile.init_vy]
    rw [Projectile.init_vy] at hvy
    unfold gEarth
    nlinarith [hvy]
  rw [Projectile.step_land_eq _ (Projectile.init_landed angleDeg speed m 0 air)
    (le_of_lt hylt)]
  dsimp only
  simp only [Projectile.init_trajectory, Projectile.init_x, Projectile.init_y,
    Projectile.init_t, Projectile.init_dt]
  have hlast : ([((0 : ℝ), (0 : ℝ), (0 : ℝ))].getLastD
      ((0 : ℝ), (0 : ℝ), (0 : ℝ))) = ((0 : ℝ), (0 : ℝ), (0 : ℝ)) := rfl
  rw [hlast]
  dsimp only
  have hy2ne : (0 : ℝ) + ((Projectile.init angleDeg speed m 0 air).vy +
      (Projectile.init angleDeg speed m 0 air).accel.2 * 0.01) * 0.01 ≠ 0 := by
    have := hylt
    simp only [Projectile.init_y, Projectile.init_dt] at this
    exact ne_of_lt this
  rw [if_neg hy2ne]
  have hfrac : clamp ((0 - 0) /
      ((0 : ℝ) + ((Projectile.init angleDeg speed m 0 air).vy +
        (Projectile.init angleDeg speed m 0 air).accel.2 * 0.01) * 0.01 - 0))
      0 1 = 0 := by
    rw [sub_self, zero_div]
    unfold clamp
    norm_num
  rw [hfrac]
  norm_num

/-- Witness for the amended C10: zero speed from the ground, air flag off. -/
theorem claim10_first_step_lands_amended_witness :
    (Projectile.init 0 0 1 0 false).step.landed = true ∧
    (Projectile.init 0 0 1 0 false).step.flightTime = 0 ∧
    (Projectile.init 0 0 1 0 false).step.range = 0 ∧
    (Projectile.init 0 0 1 0 false).step.trajectory =
      [((0 : ℝ), (0 : ℝ), (0 : ℝ)), ((0 : ℝ), (0 : ℝ), (0 : ℝ))] :=
  claim10_first_step_lands_amended 0 0 1 false
    (by rw [Projectile.init_vy]; simp) (Or.inl rfl)

/-- Counterexample to C10 as stated: with air resistance enabled, a very
fast straight-down launch of a very light body makes the Euler drag term
overshoot — the first step moves the body upward (`y > 0`), so it does not
land, although `y0 = 0` and `vy ≤ 0`. -/
theorem claim10_counterexample :
    (Projectile.init (-90) 1000000 0.0001 0 true).y0 = 0 ∧
    (Projectile.init (-90) 1000000 0.0001 0 true).vy ≤ 0 ∧
    (Projectile.init (-90) 1000000 0.0001 0 true).step.landed = false := by
  have hrad : (-90 : ℝ) * (Real.pi / 180) = -(Real.pi / 2) := by ring
  have hvx : (Projectile.init (-90) 1000000 0.0001 0 true).vx = 0 := by
    rw [Projectile.init_vx, hrad, Real.cos_neg, Real.cos_pi_div_two, mul_zero]
  have hvy : (Projectile.init (-90) 1000000 0.0001 0 true).vy = -1000000 := by
    rw [Projectile.init_vy, hrad, Real.sin_neg, Real.sin_pi_div_two]
    norm_num
  have hvmag : (Projectile.init (-90) 1000000 0.0001 0 true).vMag = 1000000 := by
    unfold Projectile.vMag
    rw [hvx, hvy]
    rw [show (0 : ℝ) ^ 2 + (-1000000 : ℝ) ^ 2 = (1000000 : ℝ) ^ 2 by norm_num]
    exact Real.sqrt_sq (by norm_num)
  have hb : ((27 : ℝ) / 10000) ≤
      (3 * ((0.0001 : ℝ) / 1000) / (4 * Real.pi)) ^ ((1 : ℝ) / 3) := by
    have hc : (2e-8 : ℝ) ≤ 3 * ((0.0001 : ℝ) / 1000) / (4 * Real.pi) := by
      rw [le_div_iff₀ (by positivity)]
      nlinarith [Real.pi_lt_d2]
    have h1 : ((27 : ℝ) / 10000) =
        ((((27 : ℝ) / 10000) ^ (3 : ℕ) : ℝ)) ^ ((1 : ℝ) / 3) := by
      rw [← Real.rpow_natCast ((27 : ℝ) / 10000) 3,
        ← Real.rpow_mul (by norm_num)]
      norm_num
    rw [h1]
    apply Real.rpow_le_rpow (by positivity) ?_ (by norm_num)
    calc ((27 : ℝ) / 10000) ^ (3 : ℕ) ≤ 2e-8 := by norm_num
      _ ≤ _ := hc
  have harea : (2e-5 : ℝ) ≤ (Projectile.init (-90) 1000000 0.0001 0 true).area
      := by
    rw [Projectile.init_area, if_neg (by norm_num)]
    have hr0 : (0 : ℝ) ≤
        (3 * ((0.0001 : ℝ) / 1000) / (4 * Real.pi)) ^ ((1 : ℝ) / 3) :=
      le_trans (by norm_num) hb
    have hrr : ((27 : ℝ) / 10000) * ((27 : ℝ) / 10000) ≤
        (3 * ((0.0001 : ℝ) / 1000) / (4 * Real.pi)) ^ ((1 : ℝ) / 3) *
          ((3 * ((0.0001 : ℝ) / 1000) / (4 * Real.pi)) ^ ((1 : ℝ) / 3)) :=
      mul_le_mul hb hb (by norm_num) hr0
    nlinarith [Real.pi_gt_three, hrr, hr0]
  have ha := Projectile.accel_of_drag
    (Projectile.init (-90) 1000000 0.0001 0 true)
    ⟨Projectile.init_air (-90) 1000000 0.0001 0 true,
     by rw [hvmag]; norm_num⟩
  have hy : 0 < (Projectile.init (-90) 1000000 0.0001 0 true).y +
      ((Projectile.init (-90) 1000000 0.0001 0 true).vy +
        (Projectile.init (-90) 1000000 0.0001 0 true).accel.2 *
          (Projectile.init (-90) 1000000 0.0001 0 true).dt) *
        (Projectile.init (-90) 1000000 0.0001 0 true).dt := by
    rw [ha]
    dsimp only
    rw [hvmag, hvy]
    simp only [Projectile.init_y, Projectile.init_dt, Projectile.init_mass]
    unfold airDensity dragCoeff gEarth
    rw [show ((-1000000 : ℝ) / 1000000) = -1 by norm_num]
    set A := (Projectile.init (-90) 1000000 0.0001 0 true).area with hA
    have hE : -(0.5 * 1.225 * 0.47 * A * 1000000 * 1000000 * (-1)) /
        (0.0001 : ℝ) = 2.87875e15 * A := by
      ring
    rw [hE]
    nlinarith [harea]
  refine ⟨rfl, by rw [hvy]; norm_num, ?_⟩
  rw [Projectile.step_fly_eq _ (Projectile.init_landed (-90) 1000000 0.0001 0
    true) hy, Projectile.integrate_landed, Projectile.init_landed]
